import Mathlib

/-!
Verification of the discovery-and-crawl orchestration engine of the
deep-web-research repository, against its natural-language specification.

The Python sources are shallowly embedded as executable Lean definitions:
  * `onion_database.py`  — the link repository (SQLite) as a pure record store,
  * `enhanced_crawler.py` — `crawl_onion` / `crawl_with_recovery` as state
    transformers over the repository,
  * `connection_manager.py` — the transport session manager and its
    `perform_request` retry loop as an explicit trace-producing step function,
  * `retry_utils.py` — `retry_operation`,
  * `security_utils.py` — `ThrottleManager.get_delay`,
  * `crawler_pool.py` — `crawl_batch` and the rate-limited critical section.

Machine floats in the source are modelled as rationals; wall-clock reads and
`random.uniform` draws are passed in explicitly as parameters or streams.
-/

set_option maxHeartbeats 1000000
set_option maxRecDepth 4000

namespace DeepWeb

/-! ### Link repository: `onion_database.py`

A `LinkRecord` is one row of the `onion_links` table; `tags` and `metadata`
keep their serialized (JSON string) form, as stored.  The `crawl_history`
table rows are keyed here directly by url (the source resolves the url to
`onion_id` first and refuses the insert when the url is unknown). -/

structure LinkRecord where
  url : String
  title : String
  description : String
  category : String
  content_preview : String
  last_checked : ℚ
  status : String
  discovery_source : String
  trust_score : ℚ
  tags : String
  metadata : String
deriving DecidableEq

structure CrawlHistoryEntry where
  url : String
  crawl_date : ℚ
  status : String
  response_time : Option ℚ
  error_message : Option String
deriving DecidableEq

structure Db where
  links : List LinkRecord
  history : List CrawlHistoryEntry
deriving DecidableEq

/-- Insertion sort, standing in for SQL `ORDER BY` (structural recursion so
that concrete repositories evaluate inside the kernel). -/
def insertOrdered {α : Type} (le : α → α → Bool) (a : α) : List α → List α
  | [] => [a]
  | b :: l => if le a b then a :: b :: l else b :: insertOrdered le a l

def orderBy {α : Type} (le : α → α → Bool) : List α → List α
  | [] => []
  | a :: l => insertOrdered le a (orderBy le l)

theorem mem_insertOrdered {α : Type} {le : α → α → Bool} {a b : α}
    {l : List α} : b ∈ insertOrdered le a l ↔ b = a ∨ b ∈ l := by
  induction l with
  | nil => simp [insertOrdered]
  | cons c l ih =>
    by_cases h : le a c
    · simp [insertOrdered, h]
    · simp [insertOrdered, h, ih]
      tauto

theorem mem_orderBy {α : Type} {le : α → α → Bool} {a : α} {l : List α} :
    a ∈ orderBy le l ↔ a ∈ l := by
  induction l with
  | nil => simp [orderBy]
  | cons b l ih => simp [orderBy, mem_insertOrdered, ih]

def has_url (db : Db) (u : String) : Bool :=
  db.links.any (fun r => r.url == u)

def find_by_url (db : Db) (u : String) : Option LinkRecord :=
  db.links.find? (fun r => r.url == u)

/-- `OnionLinkDatabase.add_link`: `INSERT OR IGNORE` of a fresh row with
status `"new"` and `last_checked` set to the current time.  Returns `true`
iff a row was actually inserted (`rowcount > 0`). -/
def add_link (db : Db) (now : ℚ) (url title description category
    content_preview discovery_source tags metadata : String) : Bool × Db :=
  if has_url db url then
    (false, db)
  else
    (true, { db with links := db.links ++
      [⟨url, title, description, category, content_preview, now, "new",
        discovery_source, 0, tags, metadata⟩] })

/-- The free-form `**kwargs` of `OnionLinkDatabase.update_link` as a patch of
explicitly enumerated optional columns (`url` and `id` are never patched). -/
structure LinkPatch where
  title : Option String
  description : Option String
  category : Option String
  content_preview : Option String
  status : Option String
  discovery_source : Option String
  trust_score : Option ℚ
  tags : Option String
  metadata : Option String
deriving DecidableEq

def emptyPatch : LinkPatch :=
  ⟨none, none, none, none, none, none, none, none, none⟩

/-- One row after `UPDATE onion_links SET <patched columns>, last_checked=now`:
every column named in the patch takes the patched value, `last_checked` is
always overwritten, everything else is untouched. -/
def apply_patch (r : LinkRecord) (p : LinkPatch) (now : ℚ) : LinkRecord :=
  { r with
    title := p.title.getD r.title
    description := p.description.getD r.description
    category := p.category.getD r.category
    content_preview := p.content_preview.getD r.content_preview
    status := p.status.getD r.status
    discovery_source := p.discovery_source.getD r.discovery_source
    trust_score := p.trust_score.getD r.trust_score
    tags := p.tags.getD r.tags
    metadata := p.metadata.getD r.metadata
    last_checked := now }

/-- `OnionLinkDatabase.update_link`: runs the `UPDATE ... WHERE url=?` (a
no-op on rows with a different url) and reports `rowcount > 0`. -/
def update_link (db : Db) (url : String) (p : LinkPatch) (now : ℚ) : Bool × Db :=
  (has_url db url,
   { db with
     links := db.links.map
       (fun r => if r.url == url then apply_patch r p now else r) })

/-- `OnionLinkDatabase.update_link_status`. -/
def update_link_status (db : Db) (url status : String)
    (title description content_preview : Option String) (now : ℚ) : Bool × Db :=
  update_link db url
    { emptyPatch with
        status := some status, title := title, description := description,
        content_preview := content_preview } now

/-- `OnionLinkDatabase.add_crawl_history`: refuses the entry when the url is
unknown, otherwise appends one audit row. -/
def add_crawl_history (db : Db) (url status : String) (response_time : Option ℚ)
    (error_message : Option String) (now : ℚ) : Bool × Db :=
  if has_url db url then
    (true, { db with history := db.history ++
      [⟨url, now, status, response_time, error_message⟩] })
  else
    (false, db)

/-- `ORDER BY trust_score DESC, last_checked DESC` as a total boolean order. -/
def category_le (a b : LinkRecord) : Bool :=
  if a.trust_score == b.trust_score then b.last_checked ≤ a.last_checked
  else b.trust_score ≤ a.trust_score

/-- `OnionLinkDatabase.get_links_by_category`: selects by category only — the
`WHERE` clause has no condition on `status`. -/
def get_links_by_category (db : Db) (category : String)
    (lim offset : ℕ) : List LinkRecord :=
  (((orderBy category_le
      (db.links.filter (fun r => r.category == category))).drop offset).take lim)

/-- `ORDER BY last_checked ASC, trust_score DESC` as a total boolean order. -/
def unchecked_le (a b : LinkRecord) : Bool :=
  if a.last_checked == b.last_checked then b.trust_score ≤ a.trust_score
  else a.last_checked ≤ b.last_checked

/-- `OnionLinkDatabase.get_unchecked_links`.  With a (truthy) `older_than_hours`
the selection is `status='new' OR (last_checked < cutoff AND status !=
'blacklisted')`; otherwise it is `status='new'` ordered by id descending
(reverse insertion order). -/
def get_unchecked_links (db : Db) (lim : ℕ) (older_than_hours : Option ℚ)
    (now : ℚ) : List String :=
  if older_than_hours.getD 0 ≠ 0 then
    let cutoff := now - (older_than_hours.getD 0) * 3600
    (((orderBy unchecked_le
        (db.links.filter (fun r => r.status == "new" ||
          (decide (r.last_checked < cutoff) &&
            r.status != "blacklisted")))).take lim).map (fun r => r.url))
  else
    ((((db.links.filter (fun r => r.status == "new")).reverse).take lim).map
      (fun r => r.url))

/-- `OnionLinkDatabase.blacklist_link`. -/
def blacklist_link (db : Db) (url : String) (metadata : String) (now : ℚ) :
    Bool × Db :=
  update_link db url
    { emptyPatch with status := some "blacklisted", metadata := some metadata }
    now

/-- The urls that `EnhancedTorCrawler.discover_from_directories` hands to the
crawler: the `"directory"`-category rows, status unexamined
(`enhanced_crawler.py` lines 406 and 418). -/
def discover_from_directories_selection (db : Db) (max_sites : ℕ) :
    List String :=
  (get_links_by_category db "directory" max_sites 0).map (fun r => r.url)

/-! ### Repository lemmas -/

theorem apply_patch_url (r : LinkRecord) (p : LinkPatch) (now : ℚ) :
    (apply_patch r p now).url = r.url := rfl

theorem find_by_url_update_link (db : Db) (u v : String) (p : LinkPatch)
    (now : ℚ) :
    find_by_url (update_link db u p now).2 v =
      (find_by_url db v).map
        (fun r => if r.url == u then apply_patch r p now else r) := by
  have hpred : ∀ r : LinkRecord,
      ((if r.url == u then apply_patch r p now else r).url == v) =
        (r.url == v) := by
    intro r
    by_cases h : r.url == u <;> simp [h, apply_patch_url]
  simp only [find_by_url, update_link, List.find?_map]
  have hc : ((fun r : LinkRecord => r.url == v) ∘
      fun r => if r.url == u then apply_patch r p now else r) =
        (fun r : LinkRecord => r.url == v) := by
    funext r
    simp only [Function.comp]
    exact hpred r
  rw [hc]

/-! ### Concrete repositories used as witnesses -/

def rec_a : LinkRecord :=
  ⟨"http://a.onion", "A", "d", "market", "", 1, "new", "seed", 0, "[]", ""⟩

def db_a : Db := ⟨[rec_a], []⟩

def p_status_active : LinkPatch := { emptyPatch with status := some "active" }

def dir_blacklisted : LinkRecord :=
  ⟨"http://dir.onion", "Dir", "", "directory", "", 0, "blacklisted", "seed", 0,
   "[]", ""⟩

def db_dir : Db := ⟨[dir_blacklisted], []⟩

def db_new : Db :=
  ⟨[⟨"http://b.onion", "B", "", "", "", 0, "new", "", 0, "[]", ""⟩], []⟩

/-! ### C10 -/

/-- C10: `update_link(url, patch)` on a repository holding a record for `url`
modifies exactly the columns named in the patch plus `last_checked` — which is
overwritten with the call time even though the patch does not mention it —
keeps all other columns and all other records as they were, inserts nothing,
and returns `true`; on an unknown url it returns `false` and leaves the
repository unchanged. -/
theorem update_link_frame (db : Db) (u : String) (p : LinkPatch) (now : ℚ) :
    (find_by_url db u = none → update_link db u p now = (false, db)) ∧
    (∀ r, find_by_url db u = some r →
      (update_link db u p now).1 = true ∧
      (∃ r', find_by_url (update_link db u p now).2 u = some r' ∧
        r'.url = r.url ∧
        r'.title = p.title.getD r.title ∧
        r'.description = p.description.getD r.description ∧
        r'.category = p.category.getD r.category ∧
        r'.content_preview = p.content_preview.getD r.content_preview ∧
        r'.status = p.status.getD r.status ∧
        r'.discovery_source = p.discovery_source.getD r.discovery_source ∧
        r'.trust_score = p.trust_score.getD r.trust_score ∧
        r'.tags = p.tags.getD r.tags ∧
        r'.metadata = p.metadata.getD r.metadata ∧
        r'.last_checked = now) ∧
      (∀ v, v ≠ u →
        find_by_url (update_link db u p now).2 v = find_by_url db v) ∧
      (update_link db u p now).2.links.length = db.links.length ∧
      (update_link db u p now).2.history = db.history) := by
  constructor
  · intro h
    obtain ⟨links, history⟩ := db
    have hall : ∀ r ∈ links, ¬((r.url == u) = true) := by
      simpa [find_by_url, List.find?_eq_none] using h
    have hmap : links.map
        (fun r => if r.url == u then apply_patch r p now else r) = links := by
      have hcg : links.map
          (fun r => if r.url == u then apply_patch r p now else r) =
            links.map (fun r => r) := by
        apply List.map_congr_left
        intro r hr
        simp [Bool.not_eq_true] at hall
        simp [hall r hr]
      simpa using hcg
    have hany : links.any (fun r => r.url == u) = false := by
      simp only [List.any_eq_false]
      intro r hr
      exact hall r hr
    simp only [update_link, has_url, Prod.mk.injEq]
    exact ⟨hany, congrArg (fun l => Db.mk l history) hmap⟩
  · intro r hr
    have hr' : db.links.find? (fun x => x.url == u) = some r := hr
    have hmem : r ∈ db.links := List.mem_of_find?_eq_some hr'
    have hpr : (r.url == u) = true :=
      @List.find?_some LinkRecord (fun x => x.url == u) r db.links hr'
    have hany : has_url db u = true := by
      simp only [has_url, List.any_eq_true]
      exact ⟨r, hmem, hpr⟩
    refine ⟨hany, ?_, ?_, by simp [update_link], rfl⟩
    · refine ⟨apply_patch r p now, ?_, rfl, rfl, rfl, rfl, rfl, rfl, rfl, rfl,
        rfl, rfl, rfl⟩
      rw [find_by_url_update_link]
      show (find_by_url db u).map _ = _
      rw [hr]
      have hru : r.url = u := by simpa using hpr
      simp [hru]
    · intro v hv
      rw [find_by_url_update_link]
      cases hfv : find_by_url db v with
      | none => rfl
      | some r1 =>
        have hp1 : (r1.url == v) = true :=
          @List.find?_some LinkRecord (fun x => x.url == v) r1 db.links hfv
        have h1 : r1.url = v := by simpa using hp1
        simp [h1, hv]

/-- Witness for C10: evaluating `update_link` on a one-record repository, for
an existing url and for a missing url. -/
theorem update_link_frame_witness :
    (update_link db_a "http://a.onion" p_status_active 5).1 = true ∧
    update_link db_a "http://missing.onion" p_status_active 5 = (false, db_a) := by
  constructor
  · exact ((update_link_frame db_a "http://a.onion" p_status_active 5).2
      rec_a (by decide)).1
  · exact (update_link_frame db_a "http://missing.onion" p_status_active 5).1
      (by decide)

/-! ### C4 -/

/-- C4 counterexample: a `LinkRecord` with category `"directory"` and status
`"blacklisted"` is still selected for crawling by
`discover_from_directories` — `get_links_by_category` filters by category
only, so the blacklisted status does not exclude it. -/
theorem blacklisted_link_selected_by_directory_discovery :
    discover_from_directories_selection db_dir 5 = ["http://dir.onion"] ∧
    dir_blacklisted ∈ db_dir.links ∧
    dir_blacklisted.status = "blacklisted" := by
  refine ⟨by decide, by decide, rfl⟩

/-- C4 (amended): batch recrawl selection (`get_unchecked_links`) never
returns a blacklisted record — every selected url belongs to a stored record
whose status is not `"blacklisted"` — but category-based selection
(directory discovery, search-engine querying) ignores status and can select
blacklisted links. -/
theorem get_unchecked_links_excludes_blacklisted (db : Db) (lim : ℕ)
    (oth : Option ℚ) (now : ℚ) (u : String)
    (hu : u ∈ get_unchecked_links db lim oth now) :
    ∃ r ∈ db.links, r.url = u ∧ r.status ≠ "blacklisted" := by
  unfold get_unchecked_links at hu
  by_cases h : oth.getD 0 ≠ 0
  · rw [if_pos h] at hu
    obtain ⟨r, hrmem, hru⟩ := List.mem_map.mp hu
    have hr2 := List.mem_of_mem_take hrmem
    rw [mem_orderBy] at hr2
    obtain ⟨hmem, hpred⟩ := List.mem_filter.mp hr2
    refine ⟨r, hmem, hru, ?_⟩
    intro hst
    rw [hst] at hpred
    simp at hpred
  · rw [if_neg h] at hu
    obtain ⟨r, hrmem, hru⟩ := List.mem_map.mp hu
    have hr2 := List.mem_of_mem_take hrmem
    rw [List.mem_reverse] at hr2
    obtain ⟨hmem, hpred⟩ := List.mem_filter.mp hr2
    refine ⟨r, hmem, hru, ?_⟩
    intro hst
    rw [hst] at hpred
    simp at hpred

/-- Witness for C4 (amended) on a concrete repository with one `"new"`
record. -/
theorem get_unchecked_links_excludes_blacklisted_witness :
    ∃ r ∈ db_new.links, r.url = "http://b.onion" ∧
      r.status ≠ "blacklisted" :=
  get_unchecked_links_excludes_blacklisted db_new 10 none 0
    "http://b.onion" (by decide)

/-! ### Transport session manager: `connection_manager.py`

Sessions are `requests.Session` objects compared by identity in the source
(`session == self.tor_session`); they are modelled as tagged identifiers, a
fresh one per created session.  Wall-clock reads, request outcomes and
circuit-validation outcomes are supplied as explicit parameters. -/

inductive Transport where
  | tor (id : ℕ)
  | clearnet
deriving DecidableEq

structure CMState where
  tor_enabled : Bool
  clearnet_fallback : Bool
  tor_session : Option ℕ
  circuit_created_time : Option ℚ
  request_count : ℕ
  max_circuit_age : ℚ
  max_requests_per_circuit : ℕ
  next_session_id : ℕ
deriving DecidableEq

/-- `ConnectionManager._should_rotate_circuit`: no circuit yet, age strictly
above `max_circuit_age`, or request count at/above the per-circuit budget. -/
def should_rotate_circuit (s : CMState) (now : ℚ) : Bool :=
  match s.circuit_created_time with
  | none => true
  | some t =>
    if s.max_circuit_age < now - t then true
    else if s.max_requests_per_circuit ≤ s.request_count then true
    else false

/-- `ConnectionManager._initialize_tor_session`: the old session object is
replaced by a fresh one unconditionally; only on successful validation are
the circuit clock and request counter reset (and `true` returned). -/
def new_tor_session (s : CMState) (now : ℚ) (validated : Bool) :
    Bool × CMState :=
  let s1 := { s with
    tor_session := some s.next_session_id
    next_session_id := s.next_session_id + 1 }
  if validated then
    (true, { s1 with circuit_created_time := some now, request_count := 0 })
  else
    (false, s1)

/-- Identity test `session == self.tor_session` of the source. -/
def sessionIsCurrentTor (s : CMState) (tr : Transport) : Bool :=
  match tr, s.tor_session with
  | Transport.tor i, some j => i == j
  | _, _ => false

/-- The rotation decision taken at the top of `ConnectionManager.get_session`
(line 59): rotate when there is no Tor session yet or
`_should_rotate_circuit` fires. -/
def get_session_rotates (s : CMState) (now : ℚ) : Bool :=
  s.tor_session.isNone || should_rotate_circuit s now

/-- `ConnectionManager.get_session`. -/
def get_session (s : CMState) (now : ℚ) (force_clearnet validated : Bool) :
    Transport × CMState :=
  if force_clearnet || !s.tor_enabled then (Transport.clearnet, s)
  else if get_session_rotates s now then
    let (ok, s1) := new_tor_session s now validated
    if !ok && s1.clearnet_fallback then (Transport.clearnet, s1)
    else
      match s1.tor_session with
      | some i => (Transport.tor i, s1)
      | none => (Transport.clearnet, s1)
  else
    match s.tor_session with
    | some i => (Transport.tor i, s)
    | none => (Transport.clearnet, s)

/-- One `perform_request` call, as an explicit trace: the result (`some k`
when attempt `k` returned, `none` when the loop exhausted all attempts and
re-raised), the transport used by each executed attempt, the backoff
durations slept, and the attempt indices after which the circuit was
rotated. -/
structure PRTrace where
  result : Option ℕ
  transports : List Transport
  delays : List ℚ
  rotation_attempts : List ℕ
  final : CMState
deriving DecidableEq

/-- The retry loop of `ConnectionManager.perform_request` (lines 186-212),
iterating over the attempt indices `0..max_retries`.  `req attempt tr` tells
whether the request succeeds on that attempt over that transport; `rotv`
gives each rotation's validation outcome. -/
def pr_loop (req : ℕ → Transport → Bool) (rotv : ℕ → Bool)
    (max_retries : ℕ) (backoff now : ℚ) :
    List ℕ → ℚ → Transport → CMState → List Transport → List ℚ → List ℕ →
      PRTrace
  | [], _, _, s, ts, ds, rs => ⟨none, ts, ds, rs, s⟩
  | attempt :: rest, delay, session, s, ts, ds, rs =>
    let ts := ts ++ [session]
    if req attempt session then
      ⟨some attempt, ts, ds, rs, s⟩
    else if attempt < max_retries then
      let ds := ds ++ [delay]
      let delay := delay * backoff
      if sessionIsCurrentTor s session && decide (1 ≤ attempt) then
        let s1 := (new_tor_session s now (rotv attempt)).2
        let rs := rs ++ [attempt]
        if decide (2 ≤ attempt) && s1.clearnet_fallback then
          pr_loop req rotv max_retries backoff now rest delay
            Transport.clearnet s1 ts ds rs
        else
          pr_loop req rotv max_retries backoff now rest delay session s1 ts ds rs
      else
        pr_loop req rotv max_retries backoff now rest delay session s ts ds rs
    else
      pr_loop req rotv max_retries backoff now rest delay session s ts ds rs

/-- Entry of `perform_request`: pick the session via `get_session` and count
the request against the Tor circuit when the returned session is the current
Tor session. -/
def pr_entry (s : CMState) (now : ℚ) (force_clearnet validated : Bool) :
    Transport × CMState :=
  let gs := get_session s now force_clearnet validated
  if sessionIsCurrentTor gs.2 gs.1 then
    (gs.1, { gs.2 with request_count := gs.2.request_count + 1 })
  else gs

/-- `ConnectionManager.perform_request`: session selection, request counting,
then the retry loop over attempts `0..max_retries`. -/
def perform_request (s : CMState) (now : ℚ) (force_clearnet : Bool)
    (max_retries : ℕ) (initial_delay backoff : ℚ) (validated : Bool)
    (req : ℕ → Transport → Bool) (rotv : ℕ → Bool) : PRTrace :=
  pr_loop req rotv max_retries backoff now (List.range (max_retries + 1))
    initial_delay (pr_entry s now force_clearnet validated).1
    (pr_entry s now force_clearnet validated).2 [] [] []

/-- A manager state with a freshly validated circuit (session id `0`),
clearnet fallback enabled. -/
def cmA : CMState :=
  ⟨true, true, some 0, some 0, 0, 1800, 30, 1⟩

/-- A request oracle that always fails on the Tor transport and always
succeeds on the clearnet transport. -/
def req_tor_fails : ℕ → Transport → Bool := fun _ tr =>
  match tr with
  | Transport.clearnet => true
  | Transport.tor _ => false

/-- A request oracle that fails every attempt on every transport. -/
def req_always_fails : ℕ → Transport → Bool := fun _ _ => false

/-! ### C7 -/

/-- C7 counterexample: at circuit age exactly `max_circuit_age` (1800 s since
creation) with the request count below budget, the claim (`age ≥ bound`)
demands rotation, but `_should_rotate_circuit` compares strictly
(`circuit_age > max_circuit_age`) and `get_session` does not rotate. -/
theorem rotation_boundary_counterexample :
    get_session_rotates cmA 1800 = false ∧
    cmA.circuit_created_time = some 0 ∧
    cmA.max_circuit_age ≤ (1800 : ℚ) - 0 ∧
    cmA.request_count < cmA.max_requests_per_circuit := by
  refine ⟨?_, rfl, by norm_num [cmA], by norm_num [cmA]⟩
  norm_num [get_session_rotates, should_rotate_circuit, cmA]

/-- C7 (amended): with an established circuit, `get_session` decides to
rotate exactly when the request count has reached `max_requests_per_circuit`
or the circuit age strictly exceeds `max_circuit_age`; it never rotates
while both are within bounds, and at age exactly `max_circuit_age` it does
not rotate yet. -/
theorem rotation_exactly_at_bounds (s : CMState) (now t : ℚ) (i : ℕ)
    (hs : s.tor_session = some i) (ht : s.circuit_created_time = some t) :
    get_session_rotates s now = true ↔
      (s.max_circuit_age < now - t ∨
        s.max_requests_per_circuit ≤ s.request_count) := by
  by_cases h1 : s.max_circuit_age < now - t <;>
    by_cases h2 : s.max_requests_per_circuit ≤ s.request_count <;>
      simp [get_session_rotates, should_rotate_circuit, hs, ht, h1, h2]

/-- Witness for C7 (amended) at a concrete established-circuit state. -/
theorem rotation_exactly_at_bounds_witness :
    get_session_rotates cmA 2000 = true ↔
      (cmA.max_circuit_age < 2000 - 0 ∨
        cmA.max_requests_per_circuit ≤ cmA.request_count) :=
  rotation_exactly_at_bounds cmA 2000 0 0 rfl rfl

/-! ### C5 -/

/-- C5: with clearnet fallback enabled and a request oracle that fails on
the Tor transport but would succeed on the clearnet transport, a
`perform_request` call over the current Tor circuit rotates the circuit
exactly once — after the 2nd failed attempt (index 1) — and then never
executes the clearnet switch: every one of the four attempts runs on the
original (now replaced) Tor session object and the call re-raises.  The
switch branch (`attempt >= 2 and self.clearnet_fallback`) is unreachable
because it is guarded by `session == self.tor_session`, which is false for
the stale local `session` once `_initialize_tor_session` has replaced
`self.tor_session`. -/
theorem clearnet_switch_never_taken :
    (perform_request cmA 0 false 3 1 2 true req_tor_fails
        (fun _ => true)).transports =
      [Transport.tor 0, Transport.tor 0, Transport.tor 0, Transport.tor 0] ∧
    (perform_request cmA 0 false 3 1 2 true req_tor_fails
        (fun _ => true)).result = none ∧
    (perform_request cmA 0 false 3 1 2 true req_tor_fails
        (fun _ => true)).rotation_attempts = [1] ∧
    cmA.clearnet_fallback = true ∧
    req_tor_fails 3 Transport.clearnet = true := by
  have hr4 : List.range (3 + 1) = [0, 1, 2, 3] := by decide
  refine ⟨?_, ?_, ?_, rfl, rfl⟩ <;>
    norm_num [perform_request, hr4, pr_loop, pr_entry, get_session,
      get_session_rotates, should_rotate_circuit, sessionIsCurrentTor,
      new_tor_session, req_tor_fails, cmA]

/-! ### C6 -/

/-- C6 counterexample: with `initial_delay = 1`, `backoff_factor = 2` and all
attempts failing, `perform_request` sleeps exactly `[1, 2, 4]` — the bare
geometric sequence.  Under the claim the slept delays would equal
`initialDelay * backoffFactor^k` plus a uniform draw from `[0, 0.5]`; for
the draw `1/2` (a legal value of that uniform variable) the predicted
sequence differs, and indeed no `random.uniform` draw enters the
`perform_request` delay at all. -/
theorem perform_request_delays_have_no_jitter :
    (perform_request cmA 0 false 3 1 2 true req_always_fails
        (fun _ => true)).delays = [1, 2, 4] ∧
    ([1, 2, 4] : List ℚ) ≠ [1 + 1/2, 2 + 1/2, 4 + 1/2] := by
  constructor
  · have hr4 : List.range (3 + 1) = [0, 1, 2, 3] := by decide
    norm_num [perform_request, hr4, pr_loop, pr_entry, get_session,
      get_session_rotates, should_rotate_circuit, sessionIsCurrentTor,
      new_tor_session, req_always_fails, cmA]
  · intro h
    have : (1 : ℚ) = 1 + 1/2 := by
      simpa using congrArg (fun l => l.headI) h
    norm_num at this

theorem pr_loop_delays_geometric (req : ℕ → Transport → Bool)
    (rotv : ℕ → Bool) (max_retries : ℕ) (backoff now init : ℚ) :
    ∀ (attempts : List ℕ) (session : Transport) (s : CMState)
      (ts : List Transport) (rs : List ℕ) (n : ℕ),
      ∃ m, (pr_loop req rotv max_retries backoff now attempts
              (init * backoff ^ n) session s ts
              ((List.range n).map (fun k => init * backoff ^ k)) rs).delays =
            (List.range m).map (fun k => init * backoff ^ k) := by
  intro attempts
  induction attempts with
  | nil =>
    intro session s ts rs n
    exact ⟨n, rfl⟩
  | cons attempt rest ih =>
    intro session s ts rs n
    have hds : ((List.range n).map (fun k => init * backoff ^ k)) ++
        [init * backoff ^ n] =
          (List.range (n + 1)).map (fun k => init * backoff ^ k) := by
      rw [List.range_succ, List.map_append]
      rfl
    have hdl : (init * backoff ^ n) * backoff = init * backoff ^ (n + 1) := by
      rw [pow_succ, mul_assoc]
    by_cases hreq : req attempt session
    · exact ⟨n, by simp [pr_loop, hreq]⟩
    · by_cases hlt : attempt < max_retries
      · simp only [pr_loop, hreq, hlt, if_true, if_false, Bool.false_eq_true,
          ite_true, ite_false, hds, hdl]
        split
        · split
          · exact ih _ _ _ _ (n + 1)
          · exact ih _ _ _ _ (n + 1)
        · exact ih _ _ _ _ (n + 1)
      · simpa [pr_loop, hreq, hlt] using ih session s (ts ++ [session]) rs n

/-- C6 (amended): within `perform_request` the delay slept before retry `k`
equals exactly `initial_delay * backoff_factor^k` — no jitter term is added
there (the uniform `[0, 0.5]` jitter exists only in
`retry_utils.retry_operation`) — so for `backoff_factor > 1` and positive
`initial_delay` the slept delays are strictly increasing. -/
theorem perform_request_delays_spec (s : CMState) (now : ℚ) (force : Bool)
    (max_retries : ℕ) (init b : ℚ) (validated : Bool)
    (req : ℕ → Transport → Bool) (rotv : ℕ → Bool)
    (hb : 1 < b) (hi : 0 < init) :
    ∃ m, (perform_request s now force max_retries init b validated
            req rotv).delays = (List.range m).map (fun k => init * b ^ k) ∧
      List.Pairwise (· < ·)
        (perform_request s now force max_retries init b validated
          req rotv).delays := by
  have base := pr_loop_delays_geometric req rotv max_retries b now init
    (List.range (max_retries + 1)) (pr_entry s now force validated).1
    (pr_entry s now force validated).2 [] [] 0
  simp only [pow_zero, mul_one, List.range_zero, List.map_nil] at base
  obtain ⟨m, hm⟩ := base
  refine ⟨m, hm, ?_⟩
  rw [show (perform_request s now force max_retries init b validated
      req rotv).delays = (List.range m).map (fun k => init * b ^ k) from hm]
  refine (List.pairwise_lt_range m).map _ ?_
  intro x y hxy
  exact mul_lt_mul_of_pos_left (pow_lt_pow_right₀ hb hxy) hi

/-- Witness for C6 (amended) at a concrete failing run. -/
theorem perform_request_delays_spec_witness :
    ∃ m, (perform_request cmA 0 false 3 1 2 true req_always_fails
            (fun _ => true)).delays =
          (List.range m).map (fun k => 1 * 2 ^ k) ∧
      List.Pairwise (· < ·)
        (perform_request cmA 0 false 3 1 2 true req_always_fails
          (fun _ => true)).delays :=
  perform_request_delays_spec cmA 0 false 3 1 2 true req_always_fails
    (fun _ => true) (by norm_num) (by norm_num)

/-! ### Discovery orchestrator: `enhanced_crawler.py` and `retry_utils.py`

`crawl_onion` is embedded as a state transformer over the repository.  A
fetch (the `session.get` + `raise_for_status` + BeautifulSoup parse) is an
oracle producing either a parsed page or a failure message; anchors arrive
already absolutised (the `urljoin` branch only rewrites relative hrefs).
The Python dict `crawled_data` holds optional keys; `Option` fields model
key absence, and reading an absent key (`crawled_data["was_filtered"]`,
line 279) raises `KeyError`, which the surrounding `except` catches. -/

def LINK_LIMIT_PER_PAGE : ℕ := 5
def CONTENT_PREVIEW_MAX_LENGTH : ℕ := 500
def MAX_CONSECUTIVE_ERRORS : ℕ := 5
def empty_json_arr : String := "[]"
def empty_json_obj : String := "\x7b\x7d"

inductive FetchOutcome where
  | ok (response_time : ℚ) (title : String) (description : Option String)
      (content : String) (anchors : List (String × String))
  | fail (elapsed : ℚ) (msg : String)
deriving DecidableEq

/-- `needle.isPrefixOf`-style check on characters. -/
def chars_start_with : List Char → List Char → Bool
  | _, [] => true
  | [], _ :: _ => false
  | c :: cs, d :: ds => c == d && chars_start_with cs ds

def chars_contain : List Char → List Char → Bool
  | [], needle => needle.isEmpty
  | c :: cs, needle => chars_start_with (c :: cs) needle || chars_contain cs needle

/-- Python `needle in hay` on strings. -/
def str_contains (hay needle : String) : Bool :=
  chars_contain hay.toList needle.toList

/-- The link filter of `crawl_onion` line 259: `".onion" in href`. -/
def is_onion_link (href : String) : Bool := str_contains href ".onion"

structure CrawlData where
  url : String
  content : String
  links : List String
  errors : List String
  title : Option String
  response_time : Option ℚ
  description : Option String
  was_filtered : Option Bool
deriving DecidableEq

/-- The `metadata` dict passed by `crawl_onion` to `update_link`, in its
serialized form. -/
def crawl_metadata (now rt : ℚ) : String :=
  "last_crawled=" ++ toString now ++ ";response_time=" ++ toString rt

structure PageResult where
  data : CrawlData
  db : Db
  success : Bool
deriving DecidableEq

/-- One page visit of `EnhancedTorCrawler.crawl_onion` (lines 226-296 and the
`except` handler 326-341), without the recursive descent.  On a parsed page
with `store_in_db`, every extracted onion link is `add_link`ed (status
`"new"`), then the dict read `crawled_data["was_filtered"]` runs: the key
was never written, so the `some` branch — which would set the record active
and log a success history entry — is dead, and the `KeyError` falls into the
handler, which marks the url `"error"` and logs an error history entry.  On
a fetch failure the handler does the same with the fetch error message. -/
def crawl_page (fetch : String → FetchOutcome) (now : ℚ) (store : Bool)
    (url : String) (db : Db) : PageResult :=
  match fetch url with
  | FetchOutcome.fail elapsed msg =>
    let data : CrawlData :=
      ⟨url, "", [], ["Error crawling " ++ url ++ ": " ++ msg], some "", some 0,
       none, none⟩
    if store then
      let db1 := (update_link_status db url "error" none none none now).2
      let db2 := (add_crawl_history db1 url "error" (some elapsed) (some msg)
        now).2
      ⟨data, db2, false⟩
    else ⟨data, db, false⟩
  | FetchOutcome.ok rt title description content anchors =>
    let onion_anchors := anchors.filter (fun a => is_onion_link a.1)
    let db1 :=
      if store then
        onion_anchors.foldl (fun acc a =>
          (add_link acc now a.1 (if a.2 != "" then a.2.take 100 else "")
            "" "" "" url empty_json_arr empty_json_obj).2) db
      else db
    let data0 : CrawlData :=
      ⟨url, content, onion_anchors.map (fun a => a.1), [], some title, some rt,
       description, none⟩
    if store then
      match data0.was_filtered with
      | some _ =>
        let db2 := (update_link db1 url
          { emptyPatch with
              title := some title,
              description := some (description.getD ""),
              content_preview := some (content.take CONTENT_PREVIEW_MAX_LENGTH),
              status := some "active",
              metadata := some (crawl_metadata now rt) } now).2
        let db3 := (add_crawl_history db2 url "success" (some rt) none now).2
        ⟨data0, db3, true⟩
      | none =>
        let data1 := { data0 with errors := data0.errors ++
          ["Error crawling " ++ url ++ ": KeyError: was_filtered"] }
        let db2 := (update_link_status db1 url "error" none none none now).2
        let db3 := (add_crawl_history db2 url "error" (some rt)
          (some "KeyError: was_filtered") now).2
        ⟨data1, db3, false⟩
    else ⟨data0, db1, true⟩

def subpage_sep (link : String) : String :=
  "\n\n--- Subpage: " ++ link ++ " ---\n"

/-- Merging one subpage result into the parent dict (lines 321-324). -/
def merge_sub (data : CrawlData) (link : String) (sub : CrawlData) : CrawlData :=
  { data with
    content := if sub.content != "" then
        data.content ++ subpage_sep link ++ sub.content
      else data.content
    links := data.links ++ sub.links
    errors := data.errors ++ sub.errors }

/-- The sequential subpage loop (lines 318-324), over a given per-link crawl
step. -/
def crawl_subpages (step : String → Db → ℕ → CrawlData × Db × ℕ) :
    List String → CrawlData → Db → ℕ → CrawlData × Db × ℕ
  | [], data, db, ec => (data, db, ec)
  | link :: rest, data, db, ec =>
    let r := step link db ec
    crawl_subpages step rest (merge_sub data link r.1) r.2.1 r.2.2

/-- `EnhancedTorCrawler.crawl_onion` with its sequential recursive descent
(the parallel branch requires `parallel_enabled` and `max_depth > 1`; the
claims are settled at the sequential/depth-0 path, where the two coincide).
The third component is the crawler's `error_count`: reset to `0` after a
successful page, incremented by the handler. -/
def crawl_onion (fetch : String → FetchOutcome) (now : ℚ) :
    ℕ → Bool → String → Db → ℕ → CrawlData × Db × ℕ
  | 0, store, url, db, ec =>
    let r := crawl_page fetch now store url db
    (r.data, r.db, if r.success then 0 else ec + 1)
  | dd + 1, store, url, db, ec =>
    let r := crawl_page fetch now store url db
    if r.success then
      crawl_subpages (fun l db1 ec1 => crawl_onion fetch now dd store l db1 ec1)
        (r.data.links.take LINK_LIMIT_PER_PAGE) r.data r.db 0
    else (r.data, r.db, ec + 1)

/-- `retry_utils.retry_operation`: the attempt loop, with `op` indexed by
attempt and `js` the `random.uniform(0, 0.5)` jitter stream (one draw per
sleep).  Returns the result and the list of slept durations. -/
def retry_operation_loop {α : Type} (op : ℕ → Except String α)
    (max_retries : ℕ) (backoff : ℚ) (js : ℕ → ℚ) :
    List ℕ → ℚ → Option String → List ℚ → Except String α × List ℚ
  | [], _, last, ds => (Except.error (last.getD ""), ds)
  | attempt :: rest, delay, _, ds =>
    match op attempt with
    | Except.ok v => (Except.ok v, ds)
    | Except.error e =>
      if attempt < max_retries then
        retry_operation_loop op max_retries backoff js rest (delay * backoff)
          (some e) (ds ++ [delay + js attempt])
      else
        retry_operation_loop op max_retries backoff js rest delay (some e) ds

def retry_operation {α : Type} (op : ℕ → Except String α) (max_retries : ℕ)
    (initial_delay backoff : ℚ) (js : ℕ → ℚ) : Except String α × List ℚ :=
  retry_operation_loop op max_retries backoff js (List.range (max_retries + 1))
    initial_delay none []

/-- `EnhancedTorCrawler.crawl_with_recovery`: wraps
`lambda: self.crawl_onion(url, max_depth)` in `retry_operation`.  Because
`crawl_onion` catches every fetch exception internally and returns normally,
the wrapped operation always succeeds, so only attempt `0` ever runs and the
`except` branch (error counting and clearnet fallback, lines 193-208) is
unreachable from fetch failures; the collaborator result it would use is
passed in as `fallback_result`.  Returns the crawl result triple and the
number of retries performed (= slept backoffs). -/
def crawl_with_recovery (fetch : ℕ → String → FetchOutcome) (now : ℚ)
    (max_depth : ℕ) (url : String) (db : Db) (ec : ℕ) (max_retries : ℕ)
    (initial_delay backoff : ℚ) (js : ℕ → ℚ) (fallback_enabled : Bool)
    (fallback_result : CrawlData × Db) : (CrawlData × Db × ℕ) × ℕ :=
  let r := retry_operation
    (fun k => Except.ok (crawl_onion (fetch k) now max_depth true url db ec))
    max_retries initial_delay backoff js
  match r.1 with
  | Except.ok v => (v, r.2.length)
  | Except.error e =>
    let ec1 := ec + 1
    if fallback_enabled && decide (MAX_CONSECUTIVE_ERRORS ≤ ec1) then
      ((fallback_result.1, fallback_result.2, ec1), r.2.length)
    else
      ((⟨url, "", [], [e], some "", none, none, none⟩, db, ec1), r.2.length)

/-! ### C1 and C2 -/

def rec_u : LinkRecord :=
  ⟨"http://u.onion", "", "", "", "", 0, "new", "seed", 0, "[]", ""⟩

def db_u : Db := ⟨[rec_u], []⟩

/-- A fetch oracle whose fetch and parse succeed, yielding one onion link and
one non-onion link. -/
def fetch_page_ok : String → FetchOutcome := fun _ =>
  FetchOutcome.ok 1 "Title" none "hello world"
    [("http://child.onion/x", "Child"), ("http://example.com/", "NotOnion")]

/-- A fetch oracle that always fails. -/
def fetch_fail : String → FetchOutcome := fun _ => FetchOutcome.fail 2 "timeout"

/-- A per-attempt fetch oracle that fails on attempts 0, 1, 2 and succeeds
from attempt 3 on. -/
def fetch_fails3 : ℕ → String → FetchOutcome := fun k _ =>
  if k < 3 then FetchOutcome.fail 0 "timeout"
  else FetchOutcome.ok 1 "Title" none "hello" []

/-- C1: `crawl_onion` with storing enabled, evaluated at the failing input —
a url whose fetch and parse succeed.  The extracted onion link is added as a
new LinkRecord (that part of the claim holds, and the non-onion link is not
added), but the crawled url's own record ends at status `"error"`, not
`"active"`: the success-path `update_link(status="active")` is dead code
because `crawled_data["was_filtered"]` (line 279) reads a key that is never
written, and the resulting `KeyError` lands in the handler, which appends an
error CrawlHistoryEntry.  On a failed fetch (second evaluation) the record
is set to `"error"` with the fetch message appended to history, exactly as
the claim states for the failure case. -/
theorem crawl_onion_success_path_marks_error :
    ((find_by_url (crawl_onion fetch_page_ok 7 0 true "http://u.onion"
        db_u 0).2.1 "http://u.onion").map (fun r => r.status)) = some "error" ∧
    ((find_by_url (crawl_onion fetch_page_ok 7 0 true "http://u.onion"
        db_u 0).2.1 "http://child.onion/x").map
          (fun r => (r.status, r.discovery_source, r.title))) =
      some ("new", "http://u.onion", "Child") ∧
    (find_by_url (crawl_onion fetch_page_ok 7 0 true "http://u.onion"
        db_u 0).2.1 "http://example.com/") = none ∧
    ((crawl_onion fetch_page_ok 7 0 true "http://u.onion"
        db_u 0).2.1.history.map (fun h => (h.status, h.error_message))) =
      [("error", some "KeyError: was_filtered")] ∧
    ((find_by_url (crawl_onion fetch_fail 7 0 true "http://u.onion"
        db_u 0).2.1 "http://u.onion").map (fun r => r.status)) = some "error" ∧
    ((crawl_onion fetch_fail 7 0 true "http://u.onion"
        db_u 0).2.1.history.map (fun h => (h.status, h.error_message))) =
      [("error", some "timeout")] := by
  decide

/-- C2: with a fetch that fails on each of the first 3 attempts and succeeds
on the 4th, `crawl_with_recovery` (max_retries = 3, initial delay 1, backoff
2) performs zero retries and returns the first attempt's error-laden result:
`crawl_onion` catches the fetch exception internally and returns normally,
so `retry_operation` sees a success at attempt 0 and never sleeps, even
though the oracle would have succeeded on attempt 3.  The claim expects the
successful result after exactly 3 retries with increasing delays. -/
theorem crawl_with_recovery_performs_no_retries :
    (crawl_with_recovery fetch_fails3 7 0 "http://u.onion" db_u 0 3 1 2
        (fun _ => 0) true
        (⟨"http://u.onion", "", [], [], some "", none, none, none⟩, db_u)).2
      = 0 ∧
    (crawl_with_recovery fetch_fails3 7 0 "http://u.onion" db_u 0 3 1 2
        (fun _ => 0) true
        (⟨"http://u.onion", "", [], [], some "", none, none, none⟩,
         db_u)).1.1.errors = ["Error crawling http://u.onion: timeout"] ∧
    ((find_by_url (crawl_with_recovery fetch_fails3 7 0 "http://u.onion" db_u
        0 3 1 2 (fun _ => 0) true
        (⟨"http://u.onion", "", [], [], some "", none, none, none⟩,
         db_u)).1.2.1 "http://u.onion").map (fun r => r.status))
      = some "error" ∧
    fetch_fails3 3 "http://u.onion" =
      FetchOutcome.ok 1 "Title" none "hello" [] := by
  decide

/-! ### Adaptive throttle: `security_utils.py`, `ThrottleManager`

The `random.uniform(-jitter_amount, jitter_amount)` draw of `_apply_jitter`
is passed in as a normalised factor `u ∈ [-1, 1]`, the drawn value being
`delay * jitter * u`. -/

structure ThrottleParams where
  base_delay : ℚ
  response_factor : ℚ
  error_backoff : ℚ
  max_delay : ℚ
  jitter : ℚ
deriving DecidableEq

structure DomainStats where
  requests : ℕ
  errors : ℕ
  response_times : List ℚ
  status_codes : List ℕ
  consecutive_errors : ℕ
deriving DecidableEq

/-- `ThrottleManager._apply_jitter`. -/
def apply_jitter (p : ThrottleParams) (delay u : ℚ) : ℚ :=
  delay + (delay * p.jitter) * u

/-- Python `l[-k:]`. -/
def lastN {α : Type} (k : ℕ) (l : List α) : List α :=
  l.drop (l.length - k)

/-- `ThrottleManager.get_delay` (lines 473-513): base delay raised by average
response time, multiplied by the error backoff, by `1.5` on a recent 5xx, by
`2.0` on a recent 429, capped, then jittered.  `stats = none` is a domain
with no recorded statistics. -/
def get_delay (p : ThrottleParams) (stats : Option DomainStats) (u : ℚ) : ℚ :=
  match stats with
  | none => apply_jitter p p.base_delay u
  | some st =>
    let d1 := if st.response_times ≠ [] then
        max p.base_delay
          ((st.response_times.sum / (st.response_times.length : ℚ)) *
            p.response_factor)
      else p.base_delay
    let d2 := if 0 < st.consecutive_errors then
        d1 * p.error_backoff ^ (min st.consecutive_errors 3)
      else d1
    let d3 := if st.status_codes ≠ [] ∧
        (lastN 3 st.status_codes).any (fun c => 500 ≤ c) then
        d2 * (3 / 2)
      else d2
    let d4 := if st.status_codes ≠ [] ∧
        (lastN 5 st.status_codes).any (fun c => c == 429) then
        d3 * 2
      else d3
    let d5 := min d4 p.max_delay
    apply_jitter p d5 u

/-- `computeDelay` exactly as the specification words it: `max(base,
avgResponseTime * responseFactor)`, times `errorBackoff^min(consecutive,3)`,
times 1.5 on a 5xx in the last 3 status codes, times 2.0 on a 429 in the
last 5, capped at `maxDelay`, then jittered by a uniform factor within
±`jitterFraction` of the capped value. -/
def spec_compute_delay (p : ThrottleParams) (st : DomainStats) (u : ℚ) : ℚ :=
  let avg := st.response_times.sum / (st.response_times.length : ℚ)
  let raw := max p.base_delay (avg * p.response_factor) *
    p.error_backoff ^ (min st.consecutive_errors 3) *
    (if (lastN 3 st.status_codes).any (fun c => 500 ≤ c) then 3 / 2 else 1) *
    (if (lastN 5 st.status_codes).any (fun c => c == 429) then 2 else 1)
  let capped := min raw p.max_delay
  capped + capped * p.jitter * u

/-! ### C8 -/

theorem min_jitter_congr (j u M A B : ℚ) (h : A = B) :
    min A M + (min A M) * j * u = min B M + (min B M) * j * u := by rw [h]

/-- C8: for every per-domain statistics state with at least one recorded
response time, `ThrottleManager.get_delay` returns exactly the
specification's formula: `max(base, avg * responseFactor)` multiplied by
`errorBackoff^min(consecutiveErrors, 3)`, by 1.5 when any of the last 3
status codes is ≥ 500, by 2.0 when any of the last 5 equals 429, capped at
`maxDelay`, and jittered by a uniform factor within ±`jitter` of the capped
value. -/
theorem get_delay_matches_spec (p : ThrottleParams) (st : DomainStats)
    (u : ℚ) (hrt : st.response_times ≠ []) (_hu1 : -1 ≤ u) (_hu2 : u ≤ 1) :
    get_delay p (some st) u = spec_compute_delay p st u := by
  have hne3 : ((lastN 3 st.status_codes).any (fun c => decide (500 ≤ c))) = true →
      st.status_codes ≠ [] := by
    intro h hempty
    rw [hempty] at h
    simp [lastN] at h
  have hne5 : ((lastN 5 st.status_codes).any (fun c => c == 429)) = true →
      st.status_codes ≠ [] := by
    intro h hempty
    rw [hempty] at h
    simp [lastN] at h
  simp only [get_delay, spec_compute_delay, apply_jitter]
  rw [if_pos hrt]
  rcases Nat.eq_zero_or_pos st.consecutive_errors with hce | hce
  · rw [if_neg (by omega : ¬ 0 < st.consecutive_errors), hce]
    simp only [Nat.zero_min, pow_zero, mul_one]
    by_cases h3 : ((lastN 3 st.status_codes).any (fun c => decide (500 ≤ c))) = true <;>
      by_cases h5 : ((lastN 5 st.status_codes).any (fun c => c == 429)) = true
    · rw [if_pos ⟨hne5 h5, h5⟩, if_pos ⟨hne3 h3, h3⟩, if_pos h5, if_pos h3]
    · rw [if_neg (by tauto), if_pos ⟨hne3 h3, h3⟩, if_neg h5, if_pos h3]
      exact min_jitter_congr _ _ _ _ _ (by ring)
    · rw [if_pos ⟨hne5 h5, h5⟩, if_neg (by tauto), if_pos h5, if_neg h3]
      exact min_jitter_congr _ _ _ _ _ (by ring)
    · rw [if_neg (by tauto), if_neg (by tauto), if_neg h5, if_neg h3]
      exact min_jitter_congr _ _ _ _ _ (by ring)
  · rw [if_pos hce]
    by_cases h3 : ((lastN 3 st.status_codes).any (fun c => decide (500 ≤ c))) = true <;>
      by_cases h5 : ((lastN 5 st.status_codes).any (fun c => c == 429)) = true
    · rw [if_pos ⟨hne5 h5, h5⟩, if_pos ⟨hne3 h3, h3⟩, if_pos h5, if_pos h3]
    · rw [if_neg (by tauto), if_pos ⟨hne3 h3, h3⟩, if_neg h5, if_pos h3]
      exact min_jitter_congr _ _ _ _ _ (by ring)
    · rw [if_pos ⟨hne5 h5, h5⟩, if_neg (by tauto), if_pos h5, if_neg h3]
      exact min_jitter_congr _ _ _ _ _ (by ring)
    · rw [if_neg (by tauto), if_neg (by tauto), if_neg h5, if_neg h3]
      exact min_jitter_congr _ _ _ _ _ (by ring)

/-- A concrete statistics state: two response times averaging 2 s, one
recent 429 among the status codes, two consecutive errors. -/
def st_w : DomainStats := ⟨7, 2, [1, 3], [200, 429, 200], 2⟩

def p_w : ThrottleParams := ⟨2, 3/2, 2, 30, 1/5⟩

/-- Witness for C8 at a concrete throttle state and jitter draw. -/
theorem get_delay_matches_spec_witness :
    get_delay p_w (some st_w) (1/2) = spec_compute_delay p_w st_w (1/2) :=
  get_delay_matches_spec p_w st_w (1/2) (by decide) (by norm_num) (by norm_num)

/-! ### Worker pool: `crawler_pool.py`

`crawl_batch` dispatches one task per url onto a thread pool and collects
`results[url]`; a raised task is captured into a per-url error dict.  The
throttle section of `_rate_limited_crawl` (lines 94-105) acquires the single
`self.domain_lock` and sleeps the per-domain delay while holding it, so the
sections of concurrently dispatched tasks execute strictly one after
another, in lock-acquisition order: that serialized execution is modelled
directly.  Times are rationals; `js` is the `random.uniform(0, 0.5)` jitter
stream, one draw per positive sleep. -/

structure ThrottleSection where
  domain : String
  entry : ℚ
  sleep : ℚ
  exit : ℚ
deriving DecidableEq

def lookup_time (m : List (String × ℚ)) (k : String) : Option ℚ :=
  (m.find? (fun kv => kv.1 == k)).map (fun kv => kv.2)

def upsert_time : List (String × ℚ) → String → ℚ → List (String × ℚ)
  | [], k, v => [(k, v)]
  | kv :: rest, k, v =>
    if kv.1 == k then (k, v) :: rest else kv :: upsert_time rest k v

/-- The throttle sections of `_rate_limited_crawl` for a queue of tasks (by
domain, in lock-acquisition order): each section reads the clock, computes
`delay_needed = max(0, rate_limit - (now - last_crawl))`, sleeps it (plus
jitter) while holding the global lock, and records the post-sleep time as
the domain's `last_crawl`; the next task enters only when the lock is
released. -/
def rate_limited_sections (rate_limit : ℚ) (js : ℕ → ℚ) :
    List String → ℚ → List (String × ℚ) → ℕ → List ThrottleSection
  | [], _, _, _ => []
  | d :: rest, clock, m, n =>
    let last := (lookup_time m d).getD 0
    let need := max 0 (rate_limit - (clock - last))
    let slp := if 0 < need then need + js n else 0
    let n1 := if 0 < need then n + 1 else n
    let fin := clock + slp
    ⟨d, clock, slp, fin⟩ ::
      rate_limited_sections rate_limit js rest fin (upsert_time m d fin) n1

/-- The sections run back to back: each starts at the given clock, exits
after its own sleep, and the next one starts exactly then. -/
def Chained : ℚ → List ThrottleSection → Prop
  | _, [] => True
  | c, e :: rest => e.entry = c ∧ e.exit = e.entry + e.sleep ∧ Chained e.exit rest

/-- Results dict of `crawl_batch` as an association list keyed by url. -/
def upsert_result : List (String × CrawlData) → String → CrawlData →
    List (String × CrawlData)
  | [], k, v => [(k, v)]
  | kv :: rest, k, v =>
    if kv.1 == k then (k, v) :: rest else kv :: upsert_result rest k v

def lookup_result (m : List (String × CrawlData)) (k : String) :
    Option CrawlData :=
  (m.find? (fun kv => kv.1 == k)).map (fun kv => kv.2)

/-- The per-url error dict built at `crawler_pool.py` lines 66-71 (also the
shutdown dict of line 89): url, empty content, no links, one error string,
and no other keys. -/
def pool_error_result (url msg : String) : CrawlData :=
  ⟨url, "", [], [msg], none, none, none, none⟩

/-- `_rate_limited_crawl` as seen by the result collector: the shutdown
check, then the task itself; `Except.error` is a task that raised. -/
def rate_limited_task (active : Bool) (task : String → Except String CrawlData)
    (u : String) : Except String CrawlData :=
  if active then task u
  else Except.ok (pool_error_result u "Crawler pool shutdown")

/-- `future.result()` under the `try/except` of `crawl_batch` lines 61-71. -/
def capture_result (u : String) : Except String CrawlData → CrawlData
  | Except.ok d => d
  | Except.error e => pool_error_result u e

/-- `CrawlerPool.crawl_batch`: one task per url, each captured into
`results[url]`. -/
def crawl_batch (active : Bool) (task : String → Except String CrawlData)
    (urls : List String) : List (String × CrawlData) :=
  urls.foldl (fun acc u =>
    upsert_result acc u (capture_result u (rate_limited_task active task u))) []

/-! ### C3 -/

/-- C3 counterexample: two pooled tasks, one for a throttled domain
(`slow.onion`, last crawled at the current instant, rate limit 5 s) and one
for an untouched domain (`fast.onion`), dispatched concurrently with the
slow task acquiring the lock first.  The fast task enters its throttle
section only at 1005 — after the slow task's 5 s sleep inside the global
`domain_lock` — although its own domain requires no wait; in the second run,
identical except that the slow domain was last crawled long ago, the fast
task enters at 1000.  The time the fast-domain task is blocked therefore
depends on the slow domain's state, refuting the per-domain-critical-section
claim. -/
theorem fast_domain_blocked_by_slow_domain :
    (rate_limited_sections 5 (fun _ => 0) ["slow.onion", "fast.onion"] 1000
        [("slow.onion", 1000)] 0).map (fun e => (e.domain, e.entry, e.sleep)) =
      [("slow.onion", 1000, 5), ("fast.onion", 1005, 0)] ∧
    (rate_limited_sections 5 (fun _ => 0) ["slow.onion", "fast.onion"] 1000
        [("slow.onion", 0)] 0).map (fun e => (e.domain, e.entry, e.sleep)) =
      [("slow.onion", 1000, 0), ("fast.onion", 1000, 0)] := by
  constructor <;>
    norm_num [rate_limited_sections, lookup_time, upsert_time,
      show ("slow.onion" : String) ≠ "fast.onion" from by decide,
      show ("fast.onion" : String) ≠ "slow.onion" from by decide]

/-- C3 (amended): the throttle wait of the crawler pool is one global
critical section, not a per-domain one: the delay is computed per domain,
but the sleep happens while holding the single `domain_lock`, so the
throttle sections of concurrently dispatched tasks run strictly back to
back in lock-acquisition order — each task enters exactly when the previous
task (of whatever domain) has finished sleeping. -/
theorem throttle_sections_globally_serialized (rate_limit : ℚ) (js : ℕ → ℚ) :
    ∀ (ds : List String) (clock : ℚ) (m : List (String × ℚ)) (n : ℕ),
      Chained clock (rate_limited_sections rate_limit js ds clock m n) := by
  intro ds
  induction ds with
  | nil =>
    intro clock m n
    trivial
  | cons d rest ih =>
    intro clock m n
    exact ⟨rfl, rfl, ih _ _ _⟩

/-! ### C9 -/

theorem lookup_upsert_self (m : List (String × CrawlData)) (k : String)
    (v : CrawlData) :
    lookup_result (upsert_result m k v) k = some v := by
  induction m with
  | nil => simp [upsert_result, lookup_result]
  | cons kv rest ih =>
    by_cases h : kv.1 == k
    · simp [upsert_result, h, lookup_result]
    · simp only [upsert_result, h, Bool.false_eq_true, if_false]
      simpa [lookup_result, List.find?, h] using ih

theorem lookup_upsert_other (m : List (String × CrawlData)) (k x : String)
    (v : CrawlData) (hx : x ≠ k) :
    lookup_result (upsert_result m k v) x = lookup_result m x := by
  have hkx : (k == x) = false := by
    simp
    exact Ne.symm hx
  induction m with
  | nil => simp [upsert_result, lookup_result, List.find?, hkx]
  | cons kv rest ih =>
    by_cases h : kv.1 == k
    · have hk : kv.1 = k := by simpa using h
      simp [upsert_result, h, lookup_result, List.find?, hkx, hk]
    · simp only [upsert_result, h, Bool.false_eq_true, if_false]
      by_cases h2 : kv.1 == x
      · simp [lookup_result, List.find?, h2]
      · simpa [lookup_result, List.find?, h2] using ih

theorem mem_keys_upsert (m : List (String × CrawlData)) (k x : String)
    (v : CrawlData) :
    x ∈ (upsert_result m k v).map Prod.fst ↔
      x = k ∨ x ∈ m.map Prod.fst := by
  induction m with
  | nil => simp [upsert_result]
  | cons kv rest ih =>
    by_cases h : kv.1 == k
    · have hk : kv.1 = k := by simpa using h
      simp [upsert_result, h, hk]
    · simp only [upsert_result, h, Bool.false_eq_true, if_false, List.map_cons,
        List.mem_cons, ih]
      tauto

theorem nodup_keys_upsert (m : List (String × CrawlData)) (k : String)
    (v : CrawlData) (h : (m.map Prod.fst).Nodup) :
    ((upsert_result m k v).map Prod.fst).Nodup := by
  induction m with
  | nil => simp [upsert_result]
  | cons kv rest ih =>
    simp only [List.map_cons, List.nodup_cons] at h
    by_cases hh : kv.1 == k
    · have hk : kv.1 = k := by simpa using hh
      simp only [upsert_result, hh, if_true, List.map_cons, List.nodup_cons]
      exact ⟨hk ▸ h.1, h.2⟩
    · have hk : kv.1 ≠ k := by simpa using hh
      simp only [upsert_result, hh, Bool.false_eq_true, if_false,
        List.map_cons, List.nodup_cons, mem_keys_upsert]
      exact ⟨by tauto, ih h.2⟩

theorem crawl_batch_lookup_aux (task : String → Except String CrawlData) :
    ∀ (urls : List String) (acc : List (String × CrawlData)) (u : String),
      lookup_result (urls.foldl (fun acc2 w =>
          upsert_result acc2 w (capture_result w (rate_limited_task true task w))) acc) u =
        if u ∈ urls then some (capture_result u (rate_limited_task true task u))
        else lookup_result acc u := by
  intro urls
  induction urls with
  | nil => intro acc u; simp
  | cons a rest ih =>
    intro acc u
    simp only [List.foldl_cons]
    rw [ih]
    by_cases hur : u ∈ rest
    · simp [hur]
    · by_cases hua : u = a
      · subst hua
        simp [hur, lookup_upsert_self]
      · simp [hur, hua, lookup_upsert_other _ _ _ _ hua]

theorem crawl_batch_keys_mem_aux (task : String → Except String CrawlData) :
    ∀ (urls : List String) (acc : List (String × CrawlData)) (x : String),
      x ∈ ((urls.foldl (fun acc2 w =>
          upsert_result acc2 w (capture_result w (rate_limited_task true task w))) acc).map
            Prod.fst) ↔
        x ∈ acc.map Prod.fst ∨ x ∈ urls := by
  intro urls
  induction urls with
  | nil => intro acc x; simp
  | cons a rest ih =>
    intro acc x
    simp only [List.foldl_cons]
    rw [ih, mem_keys_upsert]
    simp only [List.mem_cons]
    tauto

theorem crawl_batch_keys_nodup_aux (task : String → Except String CrawlData) :
    ∀ (urls : List String) (acc : List (String × CrawlData)),
      (acc.map Prod.fst).Nodup →
      ((urls.foldl (fun acc2 w =>
          upsert_result acc2 w (capture_result w (rate_limited_task true task w))) acc).map
            Prod.fst).Nodup := by
  intro urls
  induction urls with
  | nil => intro acc h; simpa using h
  | cons a rest ih =>
    intro acc h
    simp only [List.foldl_cons]
    exact ih _ (nodup_keys_upsert _ _ _ h)

/-- C9: `crawl_batch` over any finite url list produces exactly one entry
per input url (keys are duplicate-free and are precisely the input urls);
the entry for a url whose task raised holds that exception's message in its
`errors` list with empty content and links and nothing else, and the entry
for every url whose task returned normally is exactly that task's own
result — one task raising never perturbs the entries of its siblings. -/
theorem crawl_batch_spec (task : String → Except String CrawlData)
    (urls : List String) (u : String) (hu : u ∈ urls) :
    (∀ d, task u = Except.ok d →
      lookup_result (crawl_batch true task urls) u = some d) ∧
    (∀ e, task u = Except.error e →
      lookup_result (crawl_batch true task urls) u =
        some ⟨u, "", [], [e], none, none, none, none⟩) ∧
    ((crawl_batch true task urls).map Prod.fst).Nodup ∧
    (∀ v, v ∈ (crawl_batch true task urls).map Prod.fst ↔ v ∈ urls) := by
  refine ⟨?_, ?_, ?_, ?_⟩
  · intro d hd
    rw [crawl_batch, crawl_batch_lookup_aux task urls [] u, if_pos hu]
    simp [capture_result, rate_limited_task, hd]
  · intro e he
    rw [crawl_batch, crawl_batch_lookup_aux task urls [] u, if_pos hu]
    simp [capture_result, rate_limited_task, he, pool_error_result]
  · exact crawl_batch_keys_nodup_aux task urls [] (by simp)
  · intro v
    rw [crawl_batch, crawl_batch_keys_mem_aux task urls [] v]
    simp

/-- A task map that raises on one url and returns normally on the rest. -/
def task_w : String → Except String CrawlData := fun u =>
  if u == "http://y.onion" then Except.error "boom"
  else Except.ok ⟨u, "c", [], [], some "T", some 1, none, none⟩

/-- Witness for C9: the raising task's entry at a concrete two-url batch. -/
theorem crawl_batch_spec_witness :
    lookup_result (crawl_batch true task_w ["http://x.onion", "http://y.onion"])
        "http://y.onion" =
      some ⟨"http://y.onion", "", [], ["boom"], none, none, none, none⟩ :=
  (crawl_batch_spec task_w ["http://x.onion", "http://y.onion"]
    "http://y.onion" (by decide)).2.1 "boom" rfl

end DeepWeb
